import Mathlib

/-!
Verification of the accessibility-audit coordinator and its A2A protocol layer.

This file gives a shallow embedding, in Lean 4, of the aggregation and
protocol code of the repository:

* `src/agents/base_agent.py` — `TestSeverity`, `AccessibilityIssue`;
* `src/agents/adk_coordinator.py` — `_deduplicate_issues`, `_severity_rank`,
  `_prioritize_issues`, the `analyze` fan-out/merge pipeline;
* `src/agents/a2a_server.py` — `_calculate_compliance_score`,
  `handle_jsonrpc`, `_jsonrpc_error`;
* `src/agents/a2a_protocol.py` — `discover_agents`, `send_request`,
  `coordinate_accessibility_test`;
* `src/adk_orchestrator.py` — the session-store operations.

Python floats are modelled as rationals (`ℚ`); `round(x, 2)` is modelled with
Mathlib's `round` (half-up at exact midpoints, where Python rounds half to
even — no statement below depends on behaviour at a midpoint).  Stateful
methods are modelled by explicit state passing; code that can raise returns
`Except`.  Network effects are modelled by passing the observed outcome of
each HTTP interaction as an explicit argument.
-/

/-- Severity levels of `TestSeverity` in `src/agents/base_agent.py`. -/
inductive TestSeverity where
  | critical
  | high
  | medium
  | low
  | info
deriving DecidableEq, Repr

/-- The `AccessibilityIssue` dataclass of `src/agents/base_agent.py`.
The `evidence` bag (an arbitrary Python dict) is modelled as an optional
opaque string; no claim below inspects it. -/
structure AccessibilityIssue where
  agent_name : String
  issue_type : String
  severity : TestSeverity
  description : String
  element_selector : Option String := none
  wcag_guideline : Option String := none
  suggested_fix : Option String := none
  evidence : Option String := none
deriving DecidableEq, Repr

/-- The severity-to-rank table of
`AccessibilityCoordinatorAgent._severity_rank` (`src/agents/adk_coordinator.py`,
lines 242–250).  The Python `.get(severity, 0)` default is unreachable:
`TestSeverity` has exactly the five listed members. -/
def severity_rank : TestSeverity → Nat
  | .critical => 5
  | .high => 4
  | .medium => 3
  | .low => 2
  | .info => 1

/-- The type of deduplication keys.  Python slices the description by
characters, so the 100-character prefix is modelled on the character list. -/
abbrev DedupKey := String × Option String × Option String × List Char

/-- The deduplication key built inside
`AccessibilityCoordinatorAgent._deduplicate_issues`:
`(issue_type, element_selector, wcag_guideline, description[:100])`. -/
def dedupKey (i : AccessibilityIssue) : DedupKey :=
  (i.issue_type, i.element_selector, i.wcag_guideline, i.description.data.take 100)

/-- One iteration of the loop body of
`AccessibilityCoordinatorAgent._deduplicate_issues`
(`src/agents/adk_coordinator.py`, lines 217–238): a fresh key is appended;
a duplicate key replaces the retained issue only when the new issue has a
strictly higher severity rank (`remove` then `append`).  The `seen` set of
the Python code always holds exactly the keys of `unique_issues`, so key
membership is tested on the accumulator directly. -/
def dedupStep (unique : List AccessibilityIssue) (issue : AccessibilityIssue) :
    List AccessibilityIssue :=
  if dedupKey issue ∉ unique.map dedupKey then
    unique ++ [issue]
  else
    match unique.find? (fun ui => dedupKey ui = dedupKey issue) with
    | some existing =>
        if severity_rank existing.severity < severity_rank issue.severity then
          (unique.erase existing) ++ [issue]
        else
          unique
    | none => unique

/-- `AccessibilityCoordinatorAgent._deduplicate_issues`
(`src/agents/adk_coordinator.py`, lines 204–240). -/
def deduplicate_issues (issues : List AccessibilityIssue) : List AccessibilityIssue :=
  issues.foldl dedupStep []

/-- The per-issue penalty weight of
`A2AServer._calculate_compliance_score` (`src/agents/a2a_server.py`,
lines 113–118): `3` for critical, `2` for high, `1` for medium and `0.5`
otherwise (both `low` and `info` fall through to the `0.5` arm). -/
def severityWeight : TestSeverity → ℚ
  | .critical => 3
  | .high => 2
  | .medium => 1
  | .low => 1/2
  | .info => 1/2

/-- Rounding to two decimal places, modelling Python's `round(x, 2)`. -/
def round2 (q : ℚ) : ℚ := (round (q * 100) : ℤ) / 100

/-- `A2AServer._calculate_compliance_score` (`src/agents/a2a_server.py`,
lines 106–121): `100.0` for an empty list, otherwise
`round(max(0, 100 - penalty_weight / total_weight * 20), 2)` with
`total_weight = len(issues)`. -/
def calculate_compliance_score (issues : List AccessibilityIssue) : ℚ :=
  if issues = [] then 100
  else
    let total_weight : ℚ := issues.length
    let penalty_weight : ℚ := (issues.map (fun i => severityWeight i.severity)).sum
    round2 (max 0 (100 - penalty_weight / total_weight * 20))

/-- Issues of a list whose dedup key is `k`, in list order. -/
def filterKey (k : DedupKey) (l : List AccessibilityIssue) : List AccessibilityIssue :=
  l.filter (fun i => decide (dedupKey i = k))

/-- The accumulator step `_deduplicate_issues` performs on the single retained
issue of one dedup key: starting from nothing, each incoming issue replaces
the retained one exactly when its severity rank is strictly higher. -/
def selectIssue : Option AccessibilityIssue → AccessibilityIssue → Option AccessibilityIssue
  | none, i => some i
  | some e, i =>
      if severity_rank e.severity < severity_rank i.severity then some i else some e

/-- Pairwise-distinct dedup keys: the invariant `_deduplicate_issues`
maintains on its `unique_issues` accumulator. -/
def KeysDistinct (l : List AccessibilityIssue) : Prop :=
  l.Pairwise (fun a b => dedupKey a ≠ dedupKey b)

/-- Initial-segment test on character lists, modelling Python's
`str.startswith` on the sliced text. -/
def hasLead : List Char → List Char → Bool
  | [], _ => true
  | _ :: _, [] => false
  | a :: as, b :: bs => a == b && hasLead as bs

/-- Python's `in` operator on strings: the needle occurs contiguously
somewhere in the haystack. -/
def hasSub (n : List Char) : List Char → Bool
  | [] => hasLead n []
  | b :: bs => hasLead n (b :: bs) || hasSub n bs

/-- Python's `str.endswith`: the needle is a final segment of the haystack. -/
def hasTail (n h : List Char) : Bool := hasLead n.reverse h.reverse

/-- The WCAG-level priority computed inside
`AccessibilityCoordinatorAgent._prioritize_issues`
(`src/agents/adk_coordinator.py`, lines 265–271): `1` by default — also for
a missing or empty guideline, both falsy in Python — `3` when the guideline
text contains `" A "` or ends with `" A"`, else `2` when it contains
`" AA "` or ends with `" AA"`. -/
def wcag_priority (g : Option String) : Nat :=
  match g with
  | none => 1
  | some s =>
    if s.data = [] then 1
    else if hasSub " A ".data s.data || hasTail " A".data s.data then 3
    else if hasSub " AA ".data s.data || hasTail " AA".data s.data then 2
    else 1

/-- The two-component sort key `priority_key` of `_prioritize_issues`:
`(severity rank, WCAG priority)`. -/
def priority_key (i : AccessibilityIssue) : Nat × Nat :=
  (severity_rank i.severity, wcag_priority i.wcag_guideline)

/-- Lexicographic order on priority keys, as Python compares tuples. -/
def keyLexLe (a b : Nat × Nat) : Bool :=
  a.1 < b.1 || (a.1 == b.1 && a.2 ≤ b.2)

/-- The comparison realised by Python's
`sorted(issues, key=priority_key, reverse=True)`: `a` may precede `b`
exactly when `b`'s key is lexicographically at most `a`'s.  A stable sort
under this non-strict comparison keeps equal-keyed issues in input order,
exactly as CPython's stable `sorted` with `reverse=True` does. -/
def priorityGE (a b : AccessibilityIssue) : Bool :=
  keyLexLe (priority_key b) (priority_key a)

/-- `AccessibilityCoordinatorAgent._prioritize_issues`
(`src/agents/adk_coordinator.py`, lines 252–275): stable descending sort of
the issues by `priority_key`. -/
def prioritize_issues (issues : List AccessibilityIssue) : List AccessibilityIssue :=
  issues.mergeSort priorityGE

/-- Concrete HIGH-severity finding used as a witness input, taken from the
end-to-end scenario of the spec (§8). -/
def sampleHighIssue : AccessibilityIssue :=
  { agent_name := "color_contrast_agent"
    issue_type := "LOW_TEXT_CONTRAST"
    severity := .high
    description := "Low text contrast on intro paragraph"
    element_selector := some "p.intro"
    wcag_guideline := some "WCAG 2.2 - 1.4.3" }

/-- The same finding reported by a second checker at CRITICAL severity:
identical dedup key, higher severity rank. -/
def sampleCriticalIssue : AccessibilityIssue :=
  { agent_name := "keyboard_focus_agent"
    issue_type := "LOW_TEXT_CONTRAST"
    severity := .critical
    description := "Low text contrast on intro paragraph"
    element_selector := some "p.intro"
    wcag_guideline := some "WCAG 2.2 - 1.4.3" }

/-- The shared dedup key of the two sample findings. -/
def sampleKey : DedupKey := dedupKey sampleHighIssue

/-- A low-weight informational finding, used to exhibit the behaviour of the
average-based compliance score when an issue is appended. -/
def sampleInfoIssue : AccessibilityIssue :=
  { agent_name := "color_contrast_agent"
    issue_type := "DECORATIVE_IMAGE_ALT"
    severity := .info
    description := "Decorative image carries redundant alt text" }

/-- Parameter and result payloads of JSON-RPC calls, modelled as opaque
string-keyed dictionaries. -/
abbrev RpcDict := List (String × String)

/-- A JSON-RPC request as the parsed JSON object (a Python dict): each
envelope field is either absent or present.  `id := none` models both an
absent and a JSON-null id, exactly as Python's `dict.get` collapses them. -/
structure RpcRequest where
  jsonrpc : Option String := none
  method : Option String := none
  params : RpcDict := []
  id : Option String := none
deriving DecidableEq, Repr

/-- The wire input of `A2AServer.handle_jsonrpc`: either text that fails to
parse as JSON, or a parsed request object. -/
inductive RpcInput where
  | malformed
  | parsed (req : RpcRequest)
deriving DecidableEq, Repr

/-- A registered method handler: it either returns a result payload or
raises, with the exception text captured. -/
abbrev RpcHandler := RpcDict → Except String RpcDict

/-- A JSON-RPC HTTP response: the body fields together with the HTTP status
the server attaches. -/
structure RpcResponse where
  result : Option RpcDict := none
  error : Option (Int × String) := none
  id : Option String := none
  status : Nat
deriving DecidableEq, Repr

/-- `A2AServer._jsonrpc_error` (`src/agents/a2a_server.py`, lines 202–212):
every JSON-RPC error body is sent with HTTP status 400. -/
def jsonrpc_error (code : Int) (message : String) (request_id : Option String) :
    RpcResponse :=
  { result := none, error := some (code, message), id := request_id, status := 400 }

/-- `A2AServer.handle_jsonrpc` (`src/agents/a2a_server.py`, lines 151–200),
with the registered `method_handlers` dict modelled as a partial map.
Parse failure → -32700 with a null id; a `jsonrpc` field other than `"2.0"`
→ -32600 with the request's own id; a missing or empty `method` (both falsy
in Python) → -32600; an unregistered method → -32601; a handler that raises
→ -32603 with the exception text embedded in the message; success → a
status-200 response carrying the result and the request's id. -/
def handle_jsonrpc (handlers : String → Option RpcHandler) : RpcInput → RpcResponse
  | .malformed => jsonrpc_error (-32700) "Parse error" none
  | .parsed req =>
    if req.jsonrpc ≠ some "2.0" then
      jsonrpc_error (-32600) "Invalid Request" req.id
    else
      match req.method with
      | none => jsonrpc_error (-32600) "Invalid Request: method required" req.id
      | some m =>
        if m = "" then
          jsonrpc_error (-32600) "Invalid Request: method required" req.id
        else
          match handlers m with
          | some handler =>
            match handler req.params with
            | .ok r => { result := some r, error := none, id := req.id, status := 200 }
            | .error e => jsonrpc_error (-32603) ("Internal error: " ++ e) req.id
          | none => jsonrpc_error (-32601) ("Method not found: " ++ m) req.id

/-- A concrete handler table for witnesses: a single registered method
whose handler raises. -/
def sampleHandlers : String → Option RpcHandler :=
  fun m =>
    if m = "color_contrast_agent.analyze_accessibility" then
      some (fun _ => .error "boom")
    else
      none

/-- One agent entry of the listing served by `GET /a2a/agents`
(`A2AServer.list_agents`); only the fields `discover_agents` consults are
modelled. -/
structure AgentInfo where
  name : String
  agent_type : String
  testing_capabilities : List String
deriving DecidableEq, Repr

/-- The `RemoteAgent` dataclass of `src/agents/a2a_protocol.py` (lines
33–41).  `capabilities` holds the raw listing entry discovery stored;
`last_seen := none` models a never-contacted handle. -/
structure RemoteAgent where
  name : String
  endpoint : String
  agent_type : String
  capabilities : AgentInfo
  protocol_version : String := "A2A-1.0"
  last_seen : Option Nat := none
deriving DecidableEq, Repr

/-- The body of an HTTP response to a JSON-RPC POST, as the client reads
it back. -/
structure RpcResponseBody where
  result : Option RpcDict := none
  error : Option (Int × String) := none
deriving DecidableEq, Repr

/-- The wire view of a server response: the body the client will parse. -/
def responseBody (r : RpcResponse) : RpcResponseBody :=
  { result := r.result, error := r.error }

/-- The observable outcome of the single HTTP POST `send_request` issues. -/
inductive HttpOutcome where
  | timeout
  | response (status : Nat) (body : RpcResponseBody)
deriving DecidableEq, Repr

/-- The failures `A2AProtocol.send_request` raises: the three `raise` sites
of lines 224–231 of `src/agents/a2a_protocol.py`. -/
inductive SendFailure where
  | timeoutErr (message : String)
  | envelopeErr (message : String)
  | httpErr (status : Nat)
deriving DecidableEq, Repr

/-- The JSON-RPC envelope `send_request` POSTs (lines 203–209): the method
is namespaced as `<agent name>.<method name>`. -/
structure RpcEnvelope where
  jsonrpc : String
  method : String
  params : RpcDict
  id : String
deriving DecidableEq, Repr

/-- The `request_data` dict built by `A2AProtocol.send_request`. -/
def buildEnvelope (target : RemoteAgent) (method_name : String)
    (params : RpcDict) (request_id : String) : RpcEnvelope :=
  { jsonrpc := "2.0"
    method := target.name ++ "." ++ method_name
    params := params
    id := request_id }

/-- `A2AProtocol.send_request` (`src/agents/a2a_protocol.py`, lines
182–234), as a function of the observed HTTP outcome.  The returned
`RemoteAgent` is the state of `target_agent` when the call finishes — the
source never touches `last_seen` in this method.  On HTTP 200 the body is
parsed: an `error` member raises an envelope failure; otherwise the
`result` member (defaulting to the empty dict) is returned.  A non-200
status raises an HTTP failure; a timeout raises a timeout failure. -/
def send_request (target : RemoteAgent) (outcome : HttpOutcome)
    (timeout : Nat := 30) : Except SendFailure RpcDict × RemoteAgent :=
  match outcome with
  | .timeout =>
      (.error (.timeoutErr
        ("Request timeout after " ++ toString timeout ++ " seconds")), target)
  | .response status body =>
    if status = 200 then
      match body.error with
      | some err => (.error (.envelopeErr ("Remote agent error: " ++ err.2)), target)
      | none => (.ok (body.result.getD []), target)
    else
      (.error (.httpErr status), target)

/-- `A2AProtocol.coordinate_accessibility_test` (`src/agents/a2a_protocol.py`,
lines 236–275): one `send_request` call whose success refreshes the
handle's `last_seen` timestamp before the result is returned; a failure
propagates with the handle untouched. -/
def coordinate_accessibility_test (target : RemoteAgent) (outcome : HttpOutcome)
    (now : Nat) : Except SendFailure RpcDict × RemoteAgent :=
  match send_request target outcome with
  | (.ok r, agent) => (.ok r, { agent with last_seen := some now })
  | (.error e, agent) => (.error e, agent)

/-- The observable outcome of probing one discovery endpoint's
`/a2a/agents` route: a connection-level failure (refused or timed out), or
an HTTP response whose body either parses to an agent listing or is
malformed JSON (`body := none`). -/
inductive DiscoveryOutcome where
  | connectionFailed
  | response (status : Nat) (body : Option (List AgentInfo))
deriving DecidableEq, Repr

/-- Whether one listed agent passes the filter of `discover_agents`: its
declared type matches and every required capability is among its testing
capabilities.  Python skips the capability check for a `None` or empty
filter, which coincides with the empty conjunction here. -/
def agentMatches (agent_type : String) (capabilities : List String)
    (a : AgentInfo) : Bool :=
  a.agent_type == agent_type &&
    capabilities.all (fun c => a.testing_capabilities.contains c)

/-- The `RemoteAgent` handle `discover_agents` creates for one accepted
listing entry (lines 162–170 of `src/agents/a2a_protocol.py`). -/
def mkDiscoveredAgent (endpoint : String) (now : Nat) (a : AgentInfo) : RemoteAgent :=
  { name := a.name
    endpoint := endpoint
    agent_type := a.agent_type
    capabilities := a
    protocol_version := "1.0.0"
    last_seen := some now }

/-- The agents one endpoint contributes in `A2AProtocol.discover_agents`
(`src/agents/a2a_protocol.py`, lines 146–177): none unless the listing
request returned HTTP 200 and its body parsed, otherwise the accepted
entries in listing order.  Every per-endpoint exception is swallowed
(`except … continue`), so a failing endpoint contributes the empty list. -/
def discoverFromEndpoint (agent_type : String) (capabilities : List String)
    (now : Nat) (endpoint : String) : DiscoveryOutcome → List RemoteAgent
  | .connectionFailed => []
  | .response status body =>
    if status = 200 then
      match body with
      | none => []
      | some agents =>
          (agents.filter (agentMatches agent_type capabilities)).map
            (mkDiscoveredAgent endpoint now)
    else []

/-- `A2AProtocol.discover_agents` (`src/agents/a2a_protocol.py`, lines
119–180) over a sweep of endpoints, each paired with its observed outcome:
the concatenation of the per-endpoint contributions in endpoint order. -/
def discover_agents (agent_type : String) (capabilities : List String) (now : Nat)
    (endpoints : List (String × DiscoveryOutcome)) : List RemoteAgent :=
  endpoints.flatMap
    (fun ep => discoverFromEndpoint agent_type capabilities now ep.1 ep.2)

/-- A local checker in the coordinator's fan-out: its name and the issues
its browser tests would report when the target is reachable. -/
structure LocalChecker where
  name : String
  browserIssues : List AccessibilityIssue
deriving DecidableEq, Repr

/-- The CRITICAL issue a checker raises when the reachability probe fails
(`src/agents/color_contrast_agent.py`, lines 61–68; identically in
`keyboard_focus_agent.py`, lines 45–52). -/
def urlValidationIssue (agent_name url : String) : AccessibilityIssue :=
  { agent_name := agent_name
    issue_type := "URL_VALIDATION"
    severity := .critical
    description := "Unable to access URL: " ++ url }

/-- A checker's `analyze` (`ColorContrastAgent.analyze`,
`src/agents/color_contrast_agent.py`, lines 57–95): when the URL probe
fails, the single CRITICAL `URL_VALIDATION` issue is returned and no
browser test runs; otherwise the browser findings are returned. -/
def checkerAnalyze (reachable : Bool) (url : String) (c : LocalChecker) :
    List AccessibilityIssue :=
  if reachable then c.browserIssues else [urlValidationIssue c.name url]

/-- The merge–deduplicate–prioritize pipeline of
`AccessibilityCoordinatorAgent.analyze` (`src/agents/adk_coordinator.py`,
lines 145–202): remote results are collected first, then the loop of lines
184–193 invokes every local checker unconditionally — there is no
reachability short-circuit in the coordinator — and the union is
deduplicated and prioritized.  The second component counts the checker
invocations the loop performs. -/
def coordinatorAnalyze (reachable : Bool) (url : String)
    (remoteIssues : List AccessibilityIssue) (checkers : List LocalChecker) :
    List AccessibilityIssue × Nat :=
  let all := remoteIssues ++ checkers.flatMap (checkerAnalyze reachable url)
  (prioritize_issues (deduplicate_issues all), checkers.length)

/-- Two sample checkers with no browser findings, for the unreachable-URL
scenario. -/
def sampleCheckerA : LocalChecker :=
  { name := "color_contrast_agent", browserIssues := [] }

/-- The second sample checker. -/
def sampleCheckerB : LocalChecker :=
  { name := "keyboard_focus_agent", browserIssues := [] }

/-- A sample listing entry that passes the coordinator's discovery filter. -/
def sampleAgentInfo : AgentInfo :=
  { name := "remote_checker"
    agent_type := "accessibility_tester"
    testing_capabilities := ["wcag_testing", "automated_accessibility"] }

/-- A sample listing entry with the wrong agent type. -/
def sampleOtherAgentInfo : AgentInfo :=
  { name := "reporting_service"
    agent_type := "report_renderer"
    testing_capabilities := ["html_reports"] }

/-- A sample never-contacted remote handle. -/
def sampleRemoteAgent : RemoteAgent :=
  { name := "remote_checker"
    endpoint := "http://localhost:8081"
    agent_type := "accessibility_tester"
    capabilities := sampleAgentInfo }

/-- A parsed JSON-RPC request naming a method no handler is registered
for. -/
def sampleUnknownMethodInput : RpcInput :=
  .parsed
    { jsonrpc := some "2.0", method := some "missing.analyze", id := some "9" }

/-- The per-session state fragments of `context.session.state` that the
orchestrator's operations touch (`src/adk_orchestrator.py`). -/
structure SessionState where
  user_input : Option String := none
  test_completed : Bool := false
  test_results : Option RpcDict := none
deriving DecidableEq, Repr

/-- The orchestrator's `active_sessions` dict, as an association list from
session id to state in insertion order. -/
abbrev SessionStore := List (String × SessionState)

/-- `ADKAccessibilityOrchestrator.process_user_input`
(`src/adk_orchestrator.py`, lines 58–84): an unknown session id raises
`ValueError`; otherwise the input is recorded in the session state and the
greeter response is returned. -/
def process_user_input (store : SessionStore) (sid user_input : String) :
    Except String (SessionStore × String) :=
  match store.lookup sid with
  | none => .error ("Session " ++ sid ++ " not found")
  | some _ =>
      .ok
        (store.map (fun p =>
          if p.1 = sid then (p.1, { p.2 with user_input := some user_input }) else p),
        "Welcome to the AI Accessibility Testing Agent! I'll help you test '"
          ++ user_input ++ "' for WCAG 2.2 compliance.")

/-- `ADKAccessibilityOrchestrator.execute_accessibility_test`
(`src/adk_orchestrator.py`, lines 86–143): a known session id is reused,
but any other case — no id supplied, or an unknown id — silently falls
through to `InvocationContext.create_new()`, creating a fresh session under
a newly generated id.  The function returns the id the run was stored
under and the updated store; the test outcome itself is abstracted by
`results` (the success path of lines 115–129). -/
def execute_accessibility_test (store : SessionStore) (sid? : Option String)
    (freshId : String) (results : RpcDict) : String × SessionStore :=
  match sid? with
  | some sid =>
    match store.lookup sid with
    | some _ =>
        (sid, store.map (fun p =>
          if p.1 = sid then
            (p.1, { p.2 with test_completed := true, test_results := some results })
          else p))
    | none =>
        (freshId,
          store ++ [(freshId,
            { test_completed := true, test_results := some results })])
  | none =>
      (freshId,
        store ++ [(freshId,
          { test_completed := true, test_results := some results })])

/-- `ADKAccessibilityOrchestrator.generate_comprehensive_report`
(`src/adk_orchestrator.py`, lines 186–247): an unknown session id raises;
a session without a completed test raises; otherwise report data is
produced from the stored results. -/
def generate_comprehensive_report (store : SessionStore) (sid : String) :
    Except String RpcDict :=
  match store.lookup sid with
  | none => .error ("Session " ++ sid ++ " not found")
  | some st =>
    if st.test_completed then .ok (st.test_results.getD [])
    else .error ("No completed test found in session " ++ sid)

/-- `ADKAccessibilityOrchestrator.cleanup_session`
(`src/adk_orchestrator.py`, lines 273–288): deletes a present id and
returns whether it was present; an unknown id returns `false` and leaves
the store unchanged. -/
def cleanup_session (store : SessionStore) (sid : String) : Bool × SessionStore :=
  match store.lookup sid with
  | some _ => (true, store.filter (fun p => p.1 != sid))
  | none => (false, store)

section SanityChecks

example : severity_rank .critical = 5 := by decide

example :
    calculate_compliance_score
      [{ agent_name := "a", issue_type := "t", severity := .critical, description := "d" }] = 40 := by
  rw [calculate_compliance_score, if_neg (by simp)]
  norm_num [round2, severityWeight, round_eq]

example :
    calculate_compliance_score
      [{ agent_name := "a", issue_type := "t", severity := .critical, description := "d" },
       { agent_name := "b", issue_type := "u", severity := .info, description := "e" }] = 65 := by
  rw [calculate_compliance_score, if_neg (by simp)]
  norm_num [round2, severityWeight, round_eq, List.sum_cons]

end SanityChecks

section DedupLemmas

theorem mem_filterKey {k : DedupKey} {i : AccessibilityIssue} {l : List AccessibilityIssue} :
    i ∈ filterKey k l ↔ i ∈ l ∧ dedupKey i = k := by
  simp [filterKey]

theorem keysDistinct_nodup {l : List AccessibilityIssue} (h : KeysDistinct l) : l.Nodup :=
  h.imp (fun hne hab => hne (by rw [hab]))

theorem keysDistinct_pairwise_filterKey {l : List AccessibilityIssue} (k : DedupKey)
    (h : KeysDistinct l) :
    (filterKey k l).Pairwise (fun a b => dedupKey a ≠ dedupKey b) :=
  h.filter _

theorem filterKey_eq_singleton {l : List AccessibilityIssue} {e : AccessibilityIssue}
    {k : DedupKey} (h : KeysDistinct l) (he : e ∈ l) (hk : dedupKey e = k) :
    filterKey k l = [e] := by
  induction l with
  | nil => cases he
  | cons a t ih =>
    obtain ⟨h1, h2⟩ := List.pairwise_cons.mp h
    rcases List.mem_cons.mp he with rfl | he'
    · rw [filterKey, List.filter_cons_of_pos (by simp [hk])]
      have ht : filterKey k t = [] := by
        rw [filterKey, List.filter_eq_nil_iff]
        intro b hb
        simp only [decide_eq_true_eq]
        intro hbk
        exact h1 b hb (hk.trans hbk.symm)
      rw [filterKey] at ht
      rw [ht]
    · have hak : ¬ dedupKey a = k := fun hak => h1 e he' (hak.trans hk.symm)
      rw [filterKey, List.filter_cons_of_neg (by simp [hak])]
      exact ih h2 he'


theorem filterKey_eq_nil_of_not_mem {l : List AccessibilityIssue} {k : DedupKey}
    (h : k ∉ l.map dedupKey) : filterKey k l = [] := by
  rw [filterKey, List.filter_eq_nil_iff]
  intro a ha
  simp only [decide_eq_true_eq]
  intro hk
  exact h (hk ▸ List.mem_map_of_mem dedupKey ha)

theorem filterKey_erase_of_ne {l : List AccessibilityIssue} {e : AccessibilityIssue}
    {k : DedupKey} (hk : dedupKey e ≠ k) :
    filterKey k (l.erase e) = filterKey k l := by
  induction l with
  | nil => rfl
  | cons a t ih =>
    rw [List.erase_cons]
    by_cases hae : a = e
    · subst hae
      rw [if_pos (by simp)]
      simp only [filterKey]
      rw [List.filter_cons_of_neg (by simp [hk])]
    · rw [if_neg (by simp [hae])]
      simp only [filterKey] at ih ⊢
      by_cases hak : dedupKey a = k
      · rw [List.filter_cons_of_pos (by simp [hak]),
          List.filter_cons_of_pos (by simp [hak]), ih]
      · rw [List.filter_cons_of_neg (by simp [hak]),
          List.filter_cons_of_neg (by simp [hak]), ih]

theorem filterKey_erase_self {l : List AccessibilityIssue} {e : AccessibilityIssue}
    (h : KeysDistinct l) (he : e ∈ l) :
    filterKey (dedupKey e) (l.erase e) = [] := by
  rw [filterKey, List.filter_eq_nil_iff]
  intro a ha
  simp only [decide_eq_true_eq]
  intro hk
  have ha' : a ∈ l := List.mem_of_mem_erase ha
  have hae : a = e := by
    have hs1 : filterKey (dedupKey e) l = [a] := filterKey_eq_singleton h ha' hk
    have hs2 : filterKey (dedupKey e) l = [e] := filterKey_eq_singleton h he rfl
    have := hs1.symm.trans hs2
    simpa using this
  subst hae
  exact (((keysDistinct_nodup h).mem_erase_iff).mp ha).1 rfl

theorem filterKey_toList_head? {l : List AccessibilityIssue} (k : DedupKey)
    (h : KeysDistinct l) :
    ((filterKey k l).head?).toList = filterKey k l := by
  cases hl : filterKey k l with
  | nil => rfl
  | cons a t =>
    cases t with
    | nil => rfl
    | cons b u =>
      exfalso
      have hpw := keysDistinct_pairwise_filterKey k h
      rw [hl] at hpw
      have hab := (List.pairwise_cons.mp hpw).1 b (by simp)
      have hma : a ∈ filterKey k l := by rw [hl]; simp
      have hmb : b ∈ filterKey k l := by rw [hl]; simp
      exact hab ((mem_filterKey.mp hma).2.trans (mem_filterKey.mp hmb).2.symm)

theorem filterKey_dedupStep (k : DedupKey) {acc : List AccessibilityIssue}
    (i : AccessibilityIssue) (h : KeysDistinct acc) :
    filterKey k (dedupStep acc i) =
      if dedupKey i = k then (selectIssue ((filterKey k acc).head?) i).toList
      else filterKey k acc := by
  rw [dedupStep]
  by_cases hmem : dedupKey i ∈ acc.map dedupKey
  · rw [if_neg (by simpa using hmem)]
    have hfind : ∃ e, acc.find? (fun ui => decide (dedupKey ui = dedupKey i)) = some e := by
      rcases List.mem_map.mp hmem with ⟨e, he, hke⟩
      have : (acc.find? (fun ui => decide (dedupKey ui = dedupKey i))).isSome := by
        rw [List.find?_isSome]
        exact ⟨e, he, by simp [hke]⟩
      exact Option.isSome_iff_exists.mp this
    obtain ⟨e, he⟩ := hfind
    rw [he]
    dsimp only
    have hek : dedupKey e = dedupKey i := by
      have := List.find?_some he
      simpa using this
    have hemem : e ∈ acc := List.mem_of_find?_eq_some he
    have hsing : filterKey (dedupKey i) acc = [e] := filterKey_eq_singleton h hemem hek
    by_cases hrank : severity_rank e.severity < severity_rank i.severity
    · rw [if_pos hrank]
      by_cases hik : dedupKey i = k
      · subst hik
        rw [if_pos rfl]
        have h1 : filterKey (dedupKey i) (acc.erase e) = [] := by
          have := filterKey_erase_self h hemem
          rwa [hek] at this
        rw [filterKey, List.filter_append]
        rw [filterKey] at h1
        rw [h1, hsing]
        simp [selectIssue, hrank]
      · rw [if_neg hik]
        rw [filterKey, List.filter_append]
        have h2 : filterKey k (acc.erase e) = filterKey k acc :=
          filterKey_erase_of_ne (fun hc => hik (hek ▸ hc))
        rw [filterKey] at h2
        rw [h2]
        simp [filterKey, hik]
    · rw [if_neg hrank]
      by_cases hik : dedupKey i = k
      · subst hik
        rw [if_pos rfl, hsing]
        simp [selectIssue, hrank]
      · rw [if_neg hik]
  · rw [if_pos (by simpa using hmem)]
    by_cases hik : dedupKey i = k
    · subst hik
      have hnil : filterKey (dedupKey i) acc = [] := filterKey_eq_nil_of_not_mem hmem
      rw [if_pos rfl]
      simp only [filterKey] at hnil ⊢
      rw [List.filter_append, hnil]
      simp [selectIssue]
    · rw [if_neg hik, filterKey, List.filter_append]
      simp [filterKey, hik]

theorem keysDistinct_dedupStep {acc : List AccessibilityIssue} (i : AccessibilityIssue)
    (h : KeysDistinct acc) : KeysDistinct (dedupStep acc i) := by
  rw [dedupStep]
  by_cases hmem : dedupKey i ∈ acc.map dedupKey
  · rw [if_neg (by simpa using hmem)]
    rcases hfind : acc.find? (fun ui => decide (dedupKey ui = dedupKey i)) with _ | e
    · exact h
    · dsimp only
      have hek : dedupKey e = dedupKey i := by
        have := List.find?_some hfind
        simpa using this
      have hemem : e ∈ acc := List.mem_of_find?_eq_some hfind
      by_cases hrank : severity_rank e.severity < severity_rank i.severity
      · rw [if_pos hrank]
        rw [KeysDistinct, List.pairwise_append]
        refine ⟨List.Pairwise.sublist (List.erase_sublist e acc) h, List.pairwise_singleton _ _, ?_⟩
        intro a ha b hb
        have hb' : b = i := by simpa using hb
        subst hb'
        intro hc
        have hak : dedupKey a = dedupKey e := hek ▸ hc
        have ha' : a ∈ acc := List.mem_of_mem_erase ha
        have hae : a = e := by
          have hs1 := filterKey_eq_singleton h ha' hak
          have hs2 := filterKey_eq_singleton h hemem rfl
          simpa using hs1.symm.trans hs2
        subst hae
        exact (((keysDistinct_nodup h).mem_erase_iff).mp ha).1 rfl
      · rw [if_neg hrank]
        exact h
  · rw [if_pos (by simpa using hmem)]
    rw [KeysDistinct, List.pairwise_append]
    refine ⟨h, List.pairwise_singleton _ _, ?_⟩
    intro a ha b hb
    have hb' : b = i := by simpa using hb
    subst hb'
    intro hc
    exact hmem (hc ▸ List.mem_map_of_mem dedupKey ha)

theorem filterKey_foldl_dedupStep (k : DedupKey) :
    ∀ (l acc : List AccessibilityIssue), KeysDistinct acc →
      filterKey k (l.foldl dedupStep acc) =
        ((filterKey k l).foldl selectIssue ((filterKey k acc).head?)).toList
  | [], acc, h => by
    rw [List.foldl_nil, show filterKey k [] = [] from rfl, List.foldl_nil,
      filterKey_toList_head? k h]
  | i :: l, acc, h => by
    rw [List.foldl_cons,
      filterKey_foldl_dedupStep k l (dedupStep acc i) (keysDistinct_dedupStep i h)]
    have hstep := filterKey_dedupStep k i h
    by_cases hik : dedupKey i = k
    · rw [if_pos hik] at hstep
      have hcons : filterKey k (i :: l) = i :: filterKey k l := by
        rw [filterKey, List.filter_cons_of_pos (by simp [hik])]
        rfl
      rw [hcons, List.foldl_cons, hstep]
      congr 1
      cases selectIssue ((filterKey k acc).head?) i <;> rfl
    · rw [if_neg hik] at hstep
      have hcons : filterKey k (i :: l) = filterKey k l := by
        rw [filterKey, List.filter_cons_of_neg (by simp [hik])]
        rfl
      rw [hcons, hstep]

theorem filterKey_deduplicate (issues : List AccessibilityIssue) (k : DedupKey) :
    filterKey k (deduplicate_issues issues) =
      ((filterKey k issues).foldl selectIssue none).toList := by
  rw [deduplicate_issues, filterKey_foldl_dedupStep k issues [] List.Pairwise.nil]
  rfl

theorem selectFold_isSome :
    ∀ (l : List AccessibilityIssue) (e : AccessibilityIssue),
      (l.foldl selectIssue (some e)).isSome
  | [], _ => rfl
  | i :: l, e => by
    rw [List.foldl_cons]
    simp only [selectIssue]
    split
    · exact selectFold_isSome l i
    · exact selectFold_isSome l e

theorem selectFold_mem :
    ∀ (l : List AccessibilityIssue) (e j : AccessibilityIssue),
      l.foldl selectIssue (some e) = some j → j = e ∨ j ∈ l
  | [], e, j, h => by
    rw [List.foldl_nil] at h
    exact Or.inl (Option.some_injective _ h).symm
  | i :: l, e, j, h => by
    rw [List.foldl_cons] at h
    simp only [selectIssue] at h
    split at h
    · rcases selectFold_mem l i j h with rfl | h'
      · exact Or.inr (List.mem_cons_self _ _)
      · exact Or.inr (List.mem_cons_of_mem _ h')
    · rcases selectFold_mem l e j h with rfl | h'
      · exact Or.inl rfl
      · exact Or.inr (List.mem_cons_of_mem _ h')

theorem selectFold_rank_le :
    ∀ (l : List AccessibilityIssue) (e j : AccessibilityIssue),
      l.foldl selectIssue (some e) = some j →
      severity_rank e.severity ≤ severity_rank j.severity
  | [], e, j, h => by
    rw [List.foldl_nil] at h
    rw [(Option.some_injective _ h)]
  | i :: l, e, j, h => by
    rw [List.foldl_cons] at h
    simp only [selectIssue] at h
    split at h
    · rename_i hlt
      exact le_trans (le_of_lt hlt) (selectFold_rank_le l i j h)
    · exact selectFold_rank_le l e j h

theorem selectFold_ub :
    ∀ (l : List AccessibilityIssue) (o : Option AccessibilityIssue)
      (j : AccessibilityIssue), l.foldl selectIssue o = some j →
      ∀ x ∈ l, severity_rank x.severity ≤ severity_rank j.severity
  | [], _, _, _ => by simp
  | i :: l, o, j, h => by
    intro x hx
    rw [List.foldl_cons] at h
    rcases List.mem_cons.mp hx with rfl | hx'
    · cases o with
      | none =>
        simp only [selectIssue] at h
        exact selectFold_rank_le l x j h
      | some e =>
        simp only [selectIssue] at h
        split at h
        · exact selectFold_rank_le l x j h
        · rename_i hge
          exact le_trans (le_of_not_lt hge) (selectFold_rank_le l e j h)
    · cases o with
      | none =>
        simp only [selectIssue] at h
        exact selectFold_ub l (some i) j h x hx'
      | some e =>
        exact selectFold_ub l (selectIssue (some e) i) j h x hx'

theorem selectFold_first :
    ∀ (l : List AccessibilityIssue) (e j : AccessibilityIssue),
      l.foldl selectIssue (some e) = some j →
      j = e ∨ (severity_rank e.severity < severity_rank j.severity ∧
        l.find? (fun x => decide (severity_rank j.severity ≤ severity_rank x.severity)) =
          some j)
  | [], e, j, h => by
    rw [List.foldl_nil] at h
    exact Or.inl (Option.some_injective _ h).symm
  | i :: l, e, j, h => by
    rw [List.foldl_cons] at h
    simp only [selectIssue] at h
    split at h
    · rename_i hlt
      rcases selectFold_first l i j h with rfl | ⟨hlt2, hfind⟩
      · refine Or.inr ⟨hlt, ?_⟩
        rw [List.find?_cons_of_pos _ (by simp)]
      · refine Or.inr ⟨lt_trans hlt hlt2, ?_⟩
        rw [List.find?_cons_of_neg _ (by simp [hlt2]), hfind]
    · rename_i hge
      rcases selectFold_first l e j h with rfl | ⟨hlt2, hfind⟩
      · exact Or.inl rfl
      · refine Or.inr ⟨hlt2, ?_⟩
        have hi : severity_rank i.severity < severity_rank j.severity :=
          lt_of_le_of_lt (le_of_not_lt hge) hlt2
        rw [List.find?_cons_of_neg _ (by simp [hi]), hfind]

theorem selectFold_none_first (l : List AccessibilityIssue) (j : AccessibilityIssue)
    (h : l.foldl selectIssue none = some j) :
    l.find? (fun x => decide (severity_rank j.severity ≤ severity_rank x.severity)) =
      some j := by
  cases l with
  | nil => cases h
  | cons i l =>
    rw [List.foldl_cons] at h
    simp only [selectIssue] at h
    rcases selectFold_first l i j h with rfl | ⟨hlt, hfind⟩
    · rw [List.find?_cons_of_pos _ (by simp)]
    · rw [List.find?_cons_of_neg _ (by simp [hlt]), hfind]

theorem selectFold_none_mem (l : List AccessibilityIssue) (j : AccessibilityIssue)
    (h : l.foldl selectIssue none = some j) : j ∈ l := by
  cases l with
  | nil => cases h
  | cons i l =>
    rw [List.foldl_cons] at h
    simp only [selectIssue] at h
    rcases selectFold_mem l i j h with rfl | h'
    · exact List.mem_cons_self _ _
    · exact List.mem_cons_of_mem _ h'

end DedupLemmas

/-- Claim C1: for every input list of issues and every dedup key
`(issue_type, element_selector, wcag_guideline, first 100 characters of
description)`, the output of `_deduplicate_issues` contains at most one
issue with that key — exactly one when the key occurs in the input — and
the retained issue has the maximal severity rank among the input issues
sharing that key; when several attain the maximal rank, the first-occurring
one in input order is the one retained. -/
theorem C1_dedup_unique_max_first (issues : List AccessibilityIssue) (k : DedupKey) :
    (filterKey k (deduplicate_issues issues)).length ≤ 1 ∧
    (filterKey k (deduplicate_issues issues) = [] ↔ filterKey k issues = []) ∧
    (∀ j, filterKey k (deduplicate_issues issues) = [j] →
      j ∈ filterKey k issues ∧
      (∀ i ∈ filterKey k issues,
        severity_rank i.severity ≤ severity_rank j.severity) ∧
      (filterKey k issues).find?
        (fun i => decide (severity_rank j.severity ≤ severity_rank i.severity)) =
        some j) := by
  rw [filterKey_deduplicate]
  refine ⟨?_, ?_, ?_⟩
  · cases (filterKey k issues).foldl selectIssue none <;> simp
  · constructor
    · intro hnil
      cases hg : filterKey k issues with
      | nil => rfl
      | cons i t =>
        exfalso
        rw [hg, List.foldl_cons] at hnil
        simp only [selectIssue] at hnil
        have := selectFold_isSome t i
        rcases Option.isSome_iff_exists.mp this with ⟨j, hj⟩
        rw [hj] at hnil
        cases hnil
    · intro hg
      rw [hg]
      rfl
  · intro j hj
    have hsome : (filterKey k issues).foldl selectIssue none = some j := by
      cases ho : (filterKey k issues).foldl selectIssue none with
      | none =>
        rw [ho] at hj
        cases hj
      | some j' =>
        rw [ho] at hj
        have hj' : j' = j := by simpa using hj
        exact congrArg some hj'
    exact ⟨selectFold_none_mem _ j hsome, selectFold_ub _ none j hsome,
      selectFold_none_first _ j hsome⟩

/-- Witness for C1 at the spec's end-to-end example: a HIGH and a CRITICAL
issue share one dedup key, and the CRITICAL one — maximal rank, first among
the maximal — is the issue the deduplicated output retains. -/
theorem C1_dedup_unique_max_first_witness :
    sampleCriticalIssue ∈ filterKey sampleKey [sampleHighIssue, sampleCriticalIssue] ∧
    (∀ i ∈ filterKey sampleKey [sampleHighIssue, sampleCriticalIssue],
      severity_rank i.severity ≤ severity_rank sampleCriticalIssue.severity) ∧
    (filterKey sampleKey [sampleHighIssue, sampleCriticalIssue]).find?
      (fun i => decide (severity_rank sampleCriticalIssue.severity ≤
        severity_rank i.severity)) = some sampleCriticalIssue :=
  (C1_dedup_unique_max_first [sampleHighIssue, sampleCriticalIssue] sampleKey).2.2
    sampleCriticalIssue (by decide)

section PrioritizeLemmas

theorem keyLexLe_trans (x y z : Nat × Nat) :
    keyLexLe x y → keyLexLe y z → keyLexLe x z := by
  simp only [keyLexLe, Bool.or_eq_true, Bool.and_eq_true, decide_eq_true_eq, beq_iff_eq]
  omega

theorem keyLexLe_total (x y : Nat × Nat) : keyLexLe x y || keyLexLe y x := by
  simp only [keyLexLe, Bool.or_eq_true, Bool.and_eq_true, decide_eq_true_eq, beq_iff_eq]
  omega

theorem keyLexLe_refl (x : Nat × Nat) : keyLexLe x x := by
  simp [keyLexLe]

theorem priorityGE_trans (a b c : AccessibilityIssue) :
    priorityGE a b → priorityGE b c → priorityGE a c := by
  simp only [priorityGE]
  intro h1 h2
  exact keyLexLe_trans _ _ _ h2 h1

theorem priorityGE_total (a b : AccessibilityIssue) :
    priorityGE a b || priorityGE b a := by
  simp only [priorityGE]
  rcases Bool.or_eq_true _ _ |>.mp (keyLexLe_total (priority_key b) (priority_key a)) with h | h
  · rw [h]
    simp
  · rw [h]
    simp

/-- Claim C2: `_prioritize_issues` returns a permutation of its input that is
sorted descending by the lexicographic pair (severity rank, WCAG priority),
and the sort is stable — for every key value, the issues carrying that key
appear in the output in their input order. -/
theorem C2_prioritize_sorted_stable (issues : List AccessibilityIssue) :
    (prioritize_issues issues).Perm issues ∧
    (prioritize_issues issues).Pairwise (fun a b =>
      (priority_key b).1 < (priority_key a).1 ∨
      ((priority_key b).1 = (priority_key a).1 ∧
        (priority_key b).2 ≤ (priority_key a).2)) ∧
    (∀ p : Nat × Nat,
      (prioritize_issues issues).filter (fun i => decide (priority_key i = p)) =
        issues.filter (fun i => decide (priority_key i = p))) := by
  refine ⟨List.mergeSort_perm issues priorityGE, ?_, ?_⟩
  · have hs := List.sorted_mergeSort priorityGE_trans priorityGE_total issues
    refine hs.imp ?_
    intro a b hab
    simpa only [priorityGE, keyLexLe, Bool.or_eq_true, Bool.and_eq_true,
      decide_eq_true_eq, beq_iff_eq] using hab
  · intro p
    have hpair : (issues.filter (fun i => decide (priority_key i = p))).Pairwise
        (fun a b => priorityGE a b = true) := by
      apply List.pairwise_of_forall_mem_list
      intro a ha b hb
      have hpa : priority_key a = p := by
        have := List.of_mem_filter ha
        simpa using this
      have hpb : priority_key b = p := by
        have := List.of_mem_filter hb
        simpa using this
      simp only [priorityGE, hpa, hpb]
      exact keyLexLe_refl p
    have hsub : List.Sublist (issues.filter (fun i => decide (priority_key i = p)))
        (prioritize_issues issues) :=
      List.sublist_mergeSort priorityGE_trans priorityGE_total hpair
        (List.filter_sublist issues)
    have hsub2 : List.Sublist (issues.filter (fun i => decide (priority_key i = p)))
        ((prioritize_issues issues).filter (fun i => decide (priority_key i = p))) := by
      have hff := hsub.filter (fun i => decide (priority_key i = p))
      rw [List.filter_filter] at hff
      simpa using hff
    have hperm : ((prioritize_issues issues).filter
          (fun i => decide (priority_key i = p))).Perm
        (issues.filter (fun i => decide (priority_key i = p))) :=
      (List.mergeSort_perm issues priorityGE).filter _
    exact (hsub2.eq_of_length hperm.length_eq.symm).symm

end PrioritizeLemmas

section ComplianceScoreLemmas

theorem severityWeight_lb (s : TestSeverity) : (1/2 : ℚ) ≤ severityWeight s := by
  cases s <;> norm_num [severityWeight]

theorem severityWeight_ub (s : TestSeverity) : severityWeight s ≤ 3 := by
  cases s <;> norm_num [severityWeight]

theorem severityWeight_mono {a b : TestSeverity}
    (h : severity_rank a ≤ severity_rank b) : severityWeight a ≤ severityWeight b := by
  cases a <;> cases b <;> simp_all [severity_rank, severityWeight] <;> norm_num

theorem round2_mono {q r : ℚ} (h : q ≤ r) : round2 q ≤ round2 r := by
  rw [round2, round2, round_eq, round_eq]
  have hf : (⌊q * 100 + 1/2⌋ : ℤ) ≤ ⌊r * 100 + 1/2⌋ :=
    Int.floor_le_floor (by linarith)
  have hc : ((⌊q * 100 + 1/2⌋ : ℤ) : ℚ) ≤ ((⌊r * 100 + 1/2⌋ : ℤ) : ℚ) := by
    exact_mod_cast hf
  linarith

theorem round2_forty : round2 40 = 40 := by
  norm_num [round2, round_eq]

theorem round2_ninety : round2 90 = 90 := by
  norm_num [round2, round_eq]

theorem round2_zero : round2 0 = 0 := by
  norm_num [round2, round_eq]

theorem round2_hundred : round2 100 = 100 := by
  norm_num [round2, round_eq]

theorem penaltySum_lb (l : List AccessibilityIssue) :
    (l.length : ℚ) * (1/2) ≤ (l.map (fun i => severityWeight i.severity)).sum := by
  induction l with
  | nil => simp
  | cons a t ih =>
    have := severityWeight_lb a.severity
    simp only [List.map_cons, List.sum_cons, List.length_cons]
    push_cast
    linarith

theorem penaltySum_ub (l : List AccessibilityIssue) :
    (l.map (fun i => severityWeight i.severity)).sum ≤ (l.length : ℚ) * 3 := by
  induction l with
  | nil => simp
  | cons a t ih =>
    have := severityWeight_ub a.severity
    simp only [List.map_cons, List.sum_cons, List.length_cons]
    push_cast
    linarith

theorem penaltySum_nonneg (l : List AccessibilityIssue) :
    0 ≤ (l.map (fun i => severityWeight i.severity)).sum := by
  have := penaltySum_lb l
  have : (0 : ℚ) ≤ (l.length : ℚ) * (1/2) := by positivity
  linarith [penaltySum_lb l]

theorem sum_le_sum_forall2 {l₁ l₂ : List ℚ} (h : List.Forall₂ (· ≤ ·) l₁ l₂) :
    l₁.sum ≤ l₂.sum := by
  induction h with
  | nil => simp
  | cons hab _ ih =>
    simp only [List.sum_cons]
    linarith

end ComplianceScoreLemmas

section ComplianceScoreTheorems

/-- Counterexample to claim C3: the compliance score is NOT monotonically
non-increasing as issue count increases.  A critical-only list scores 40;
appending a low-weight informational issue lowers the average penalty and
RAISES the score to 65. -/
theorem C3_count_monotonicity_counterexample :
    calculate_compliance_score [sampleCriticalIssue] = 40 ∧
    calculate_compliance_score [sampleCriticalIssue, sampleInfoIssue] = 65 ∧
    calculate_compliance_score [sampleCriticalIssue] <
      calculate_compliance_score [sampleCriticalIssue, sampleInfoIssue] := by
  have h1 : calculate_compliance_score [sampleCriticalIssue] = 40 := by
    rw [calculate_compliance_score, if_neg (by simp)]
    norm_num [round2, severityWeight, round_eq, sampleCriticalIssue]
  have h2 : calculate_compliance_score [sampleCriticalIssue, sampleInfoIssue] = 65 := by
    rw [calculate_compliance_score, if_neg (by simp)]
    norm_num [round2, severityWeight, round_eq, sampleCriticalIssue, sampleInfoIssue,
      List.sum_cons]
  refine ⟨h1, h2, ?_⟩
  rw [h1, h2]
  norm_num

/-- Claim C3, amended: the score of the empty list is 100; for a non-empty
list the score equals 100 minus penalty-weight over total-weight times 20,
clamped to the interval [0, 100] and rounded to two decimals, with per-issue
weights critical = 3, high = 2, medium = 1 and 0.5 otherwise; the score is
always within [0, 100]; and the score is monotonically non-increasing under
a pointwise increase of issue severities.  (The original claim's
monotonicity in issue count is refuted by the counterexample: the penalty is
an average, so appending a below-average-weight issue raises the score.) -/
theorem C3_compliance_score_amended :
    calculate_compliance_score [] = 100 ∧
    (∀ l : List AccessibilityIssue, l ≠ [] →
      calculate_compliance_score l =
        round2 (min 100 (max 0 (100 -
          (l.map (fun i => severityWeight i.severity)).sum / (l.length : ℚ) * 20)))) ∧
    (∀ l : List AccessibilityIssue,
      0 ≤ calculate_compliance_score l ∧ calculate_compliance_score l ≤ 100) ∧
    (∀ l₁ l₂ : List AccessibilityIssue,
      List.Forall₂
        (fun a b => severity_rank a.severity ≤ severity_rank b.severity) l₁ l₂ →
      calculate_compliance_score l₂ ≤ calculate_compliance_score l₁) := by
  have hshape : ∀ l : List AccessibilityIssue, l ≠ [] →
      calculate_compliance_score l =
        round2 (max 0 (100 -
          (l.map (fun i => severityWeight i.severity)).sum / (l.length : ℚ) * 20)) := by
    intro l hl
    rw [calculate_compliance_score, if_neg hl]
  have hx_le_hundred : ∀ l : List AccessibilityIssue, l ≠ [] →
      (100 - (l.map (fun i => severityWeight i.severity)).sum / (l.length : ℚ) * 20)
        ≤ 100 := by
    intro l hl
    have hp := penaltySum_nonneg l
    have hn : (0 : ℚ) ≤ (l.length : ℚ) := by positivity
    have : 0 ≤ (l.map (fun i => severityWeight i.severity)).sum / (l.length : ℚ) * 20 := by
      positivity
    linarith
  refine ⟨by rw [calculate_compliance_score, if_pos rfl], ?_, ?_, ?_⟩
  · intro l hl
    rw [hshape l hl]
    congr 1
    rw [min_eq_right]
    exact max_le (by norm_num) (hx_le_hundred l hl)
  · intro l
    by_cases hl : l = []
    · subst hl
      rw [calculate_compliance_score, if_pos rfl]
      norm_num
    · rw [hshape l hl]
      constructor
      · have := round2_mono (le_max_left 0 (100 -
          (l.map (fun i => severityWeight i.severity)).sum / (l.length : ℚ) * 20))
        rw [round2_zero] at this
        exact this
      · have hle : max 0 (100 -
            (l.map (fun i => severityWeight i.severity)).sum / (l.length : ℚ) * 20)
              ≤ 100 :=
          max_le (by norm_num) (hx_le_hundred l hl)
        have := round2_mono hle
        rwa [round2_hundred] at this
  · intro l₁ l₂ h
    have hsummono :
        (l₁.map (fun i => severityWeight i.severity)).sum ≤
          (l₂.map (fun i => severityWeight i.severity)).sum := by
      clear hshape hx_le_hundred
      induction h with
      | nil => simp
      | cons hab _ ih =>
        simp only [List.map_cons, List.sum_cons]
        have := severityWeight_mono hab
        linarith
    have hlen := h.length_eq
    by_cases hl : l₁ = []
    · subst hl
      have : l₂ = [] := by
        cases l₂ with
        | nil => rfl
        | cons a t => cases h
      subst this
      exact le_refl _
    · have hl₂ : l₂ ≠ [] := by
        intro hc
        subst hc
        cases l₁ with
        | nil => exact hl rfl
        | cons a t => cases h
      rw [hshape l₁ hl, hshape l₂ hl₂]
      apply round2_mono
      apply max_le_max (le_refl 0)
      have hn : (0 : ℚ) < (l₂.length : ℚ) := by
        have : 0 < l₂.length := List.length_pos.mpr hl₂
        exact_mod_cast this
      have hdiv : (l₁.map (fun i => severityWeight i.severity)).sum / (l₂.length : ℚ)
          ≤ (l₂.map (fun i => severityWeight i.severity)).sum / (l₂.length : ℚ) :=
        (div_le_div_iff_of_pos_right hn).mpr hsummono
      rw [hlen]
      linarith

end ComplianceScoreTheorems

/-- Witness for the amended C3 at concrete inputs: raising the single
issue's severity from info to critical lowers the score (the severity
monotonicity conjunct applied at one-element lists). -/
theorem C3_compliance_score_amended_witness :
    calculate_compliance_score [sampleCriticalIssue] ≤
      calculate_compliance_score [sampleInfoIssue] :=
  C3_compliance_score_amended.2.2.2 [sampleInfoIssue] [sampleCriticalIssue]
    (List.Forall₂.cons (by decide) List.Forall₂.nil)

/-- Claim C10: for every non-empty issue list the compliance score lies in
the interval [40, 90] — each per-issue weight is between 0.5 and 3, so the
average penalty times 20 is between 10 and 60 — and hence the value 100 is
returned only for the empty list. -/
theorem C10_nonempty_score_bounds (l : List AccessibilityIssue) (h : l ≠ []) :
    40 ≤ calculate_compliance_score l ∧
    calculate_compliance_score l ≤ 90 ∧
    calculate_compliance_score l ≠ 100 ∧
    calculate_compliance_score [] = 100 := by
  have hn : (0 : ℚ) < (l.length : ℚ) := by
    have : 0 < l.length := List.length_pos.mpr h
    exact_mod_cast this
  have hlb := penaltySum_lb l
  have hub := penaltySum_ub l
  set p := (l.map (fun i => severityWeight i.severity)).sum with hp
  have hdiv_ub : p / (l.length : ℚ) ≤ 3 := by
    rw [div_le_iff₀ hn]
    linarith
  have hdiv_lb : (1/2 : ℚ) ≤ p / (l.length : ℚ) := by
    rw [le_div_iff₀ hn]
    linarith
  have hx_lb : (40 : ℚ) ≤ 100 - p / (l.length : ℚ) * 20 := by linarith
  have hx_ub : 100 - p / (l.length : ℚ) * 20 ≤ 90 := by linarith
  have hmax : max 0 (100 - p / (l.length : ℚ) * 20) =
      100 - p / (l.length : ℚ) * 20 :=
    max_eq_right (by linarith)
  have hcs : calculate_compliance_score l =
      round2 (100 - p / (l.length : ℚ) * 20) := by
    rw [calculate_compliance_score, if_neg h]
    dsimp only
    rw [← hp, hmax]
  refine ⟨?_, ?_, ?_, by rw [calculate_compliance_score, if_pos rfl]⟩
  · have := round2_mono hx_lb
    rw [round2_forty] at this
    rw [hcs]
    exact this
  · have := round2_mono hx_ub
    rw [round2_ninety] at this
    rw [hcs]
    exact this
  · intro hc
    have h90 : calculate_compliance_score l ≤ 90 := by
      have := round2_mono hx_ub
      rw [round2_ninety] at this
      rw [hcs]
      exact this
    rw [hc] at h90
    norm_num at h90

/-- Witness for C10 at a concrete one-issue list: the critical-only list
scores 40, inside [40, 90] and distinct from 100. -/
theorem C10_nonempty_score_bounds_witness :
    40 ≤ calculate_compliance_score [sampleCriticalIssue] ∧
    calculate_compliance_score [sampleCriticalIssue] ≤ 90 ∧
    calculate_compliance_score [sampleCriticalIssue] ≠ 100 ∧
    calculate_compliance_score [] = 100 :=
  C10_nonempty_score_bounds [sampleCriticalIssue] (by simp)

section JsonRpcTheorems

/-- Claim C4: the dispatcher's error behaviour.  Malformed JSON yields
-32700; a wrong `jsonrpc` version or a missing (or empty) `method` yields
-32600; an unregistered method yields -32601; a handler that raises yields
-32603 with the exception text inside the message; a handler that returns
yields a success response; and every response to a parseable request
carries exactly the id the request supplied. -/
theorem C4_jsonrpc_dispatch (handlers : String → Option RpcHandler) :
    (handle_jsonrpc handlers .malformed = jsonrpc_error (-32700) "Parse error" none) ∧
    (∀ req : RpcRequest, req.jsonrpc ≠ some "2.0" →
      handle_jsonrpc handlers (.parsed req) =
        jsonrpc_error (-32600) "Invalid Request" req.id) ∧
    (∀ req : RpcRequest, req.jsonrpc = some "2.0" →
      (req.method = none ∨ req.method = some "") →
      handle_jsonrpc handlers (.parsed req) =
        jsonrpc_error (-32600) "Invalid Request: method required" req.id) ∧
    (∀ (req : RpcRequest) (m : String), req.jsonrpc = some "2.0" →
      req.method = some m → m ≠ "" → handlers m = none →
      handle_jsonrpc handlers (.parsed req) =
        jsonrpc_error (-32601) ("Method not found: " ++ m) req.id) ∧
    (∀ (req : RpcRequest) (m : String) (f : RpcHandler) (e : String),
      req.jsonrpc = some "2.0" → req.method = some m → m ≠ "" →
      handlers m = some f → f req.params = .error e →
      handle_jsonrpc handlers (.parsed req) =
        jsonrpc_error (-32603) ("Internal error: " ++ e) req.id) ∧
    (∀ (req : RpcRequest) (m : String) (f : RpcHandler) (r : RpcDict),
      req.jsonrpc = some "2.0" → req.method = some m → m ≠ "" →
      handlers m = some f → f req.params = .ok r →
      handle_jsonrpc handlers (.parsed req) =
        { result := some r, error := none, id := req.id, status := 200 }) ∧
    (∀ req : RpcRequest, (handle_jsonrpc handlers (.parsed req)).id = req.id) := by
  refine ⟨rfl, ?_, ?_, ?_, ?_, ?_, ?_⟩
  · intro req hv
    rw [handle_jsonrpc, if_pos hv]
  · intro req hv hm
    rw [handle_jsonrpc, if_neg (by simp [hv])]
    rcases hm with hm | hm
    · rw [hm]
    · rw [hm]
      dsimp only
      rw [if_pos rfl]
  · intro req m hv hm hne hh
    rw [handle_jsonrpc, if_neg (by simp [hv]), hm]
    dsimp only
    rw [if_neg hne, hh]
  · intro req m f e hv hm hne hh hf
    rw [handle_jsonrpc, if_neg (by simp [hv]), hm]
    dsimp only
    rw [if_neg hne, hh]
    dsimp only
    rw [hf]
  · intro req m f r hv hm hne hh hf
    rw [handle_jsonrpc, if_neg (by simp [hv]), hm]
    dsimp only
    rw [if_neg hne, hh]
    dsimp only
    rw [hf]
  · intro req
    rw [handle_jsonrpc]
    by_cases hv : req.jsonrpc ≠ some "2.0"
    · rw [if_pos hv]
      rfl
    · rw [if_neg hv]
      cases hm : req.method with
      | none => rfl
      | some m =>
        dsimp only
        by_cases hne : m = ""
        · rw [if_pos hne]
          rfl
        · rw [if_neg hne]
          cases hh : handlers m with
          | none => rfl
          | some f =>
            dsimp only
            cases hf : f req.params with
            | ok r => rfl
            | error e => rfl

/-- Witness for C4 at concrete requests against a concrete handler table:
an unregistered method produces the -32601 error with the request's id, and
the registered raising handler produces -32603 with the exception text in
the message, again with the request's id. -/
theorem C4_jsonrpc_dispatch_witness :
    handle_jsonrpc sampleHandlers
        (.parsed
          { jsonrpc := some "2.0", method := some "missing.analyze"
            id := some "7" }) =
      jsonrpc_error (-32601) ("Method not found: " ++ "missing.analyze") (some "7") ∧
    handle_jsonrpc sampleHandlers
        (.parsed
          { jsonrpc := some "2.0"
            method := some "color_contrast_agent.analyze_accessibility"
            id := some "8" }) =
      jsonrpc_error (-32603) ("Internal error: " ++ "boom") (some "8") :=
  ⟨(C4_jsonrpc_dispatch sampleHandlers).2.2.2.1
      { jsonrpc := some "2.0", method := some "missing.analyze", id := some "7" }
      "missing.analyze" rfl rfl (by decide) (by simp [sampleHandlers]),
   (C4_jsonrpc_dispatch sampleHandlers).2.2.2.2.1
      { jsonrpc := some "2.0"
        method := some "color_contrast_agent.analyze_accessibility"
        id := some "8" }
      "color_contrast_agent.analyze_accessibility" (fun _ => .error "boom") "boom"
      rfl rfl (by decide) (by simp [sampleHandlers]) rfl⟩

end JsonRpcTheorems

section StatusTheorems

theorem handle_jsonrpc_status (handlers : String → Option RpcHandler)
    (input : RpcInput) :
    (handle_jsonrpc handlers input).status = 400 ∨
    ((handle_jsonrpc handlers input).status = 200 ∧
      (handle_jsonrpc handlers input).error = none) := by
  cases input with
  | malformed => exact Or.inl rfl
  | parsed req =>
    rw [handle_jsonrpc]
    by_cases hv : req.jsonrpc ≠ some "2.0"
    · rw [if_pos hv]
      exact Or.inl rfl
    · rw [if_neg hv]
      cases hm : req.method with
      | none => exact Or.inl rfl
      | some m =>
        dsimp only
        by_cases hne : m = ""
        · rw [if_pos hne]
          exact Or.inl rfl
        · rw [if_neg hne]
          cases hh : handlers m with
          | none => exact Or.inl rfl
          | some f =>
            dsimp only
            cases hf : f req.params with
            | ok r => exact Or.inr ⟨rfl, rfl⟩
            | error e => exact Or.inl rfl

/-- Claim C9: every JSON-RPC error response this server produces is sent
with HTTP status 400, not 200; consequently the client's `send_request`,
which parses the response body only on status 200, surfaces every
server-side JSON-RPC error as a generic HTTP-error failure and never takes
its envelope-level error branch against this server. -/
theorem C9_error_responses_http_400 (handlers : String → Option RpcHandler)
    (input : RpcInput) (h : (handle_jsonrpc handlers input).error ≠ none) :
    (handle_jsonrpc handlers input).status = 400 ∧
    (∀ (target : RemoteAgent) (t : Nat),
      (send_request target
        (.response (handle_jsonrpc handlers input).status
          (responseBody (handle_jsonrpc handlers input))) t).1 =
        .error (.httpErr 400)) ∧
    (∀ (target : RemoteAgent) (t : Nat) (msg : String),
      (send_request target
        (.response (handle_jsonrpc handlers input).status
          (responseBody (handle_jsonrpc handlers input))) t).1 ≠
        .error (.envelopeErr msg)) := by
  rcases handle_jsonrpc_status handlers input with h400 | ⟨_, hnone⟩
  · refine ⟨h400, ?_, ?_⟩
    · intro target t
      rw [h400]
      simp [send_request]
    · intro target t msg
      rw [h400]
      simp [send_request]
  · exact absurd hnone h

/-- Witness for C9: the unregistered-method request produces a 400-status
error response, and the client surfaces it as an HTTP failure. -/
theorem C9_error_responses_http_400_witness :
    (handle_jsonrpc sampleHandlers sampleUnknownMethodInput).status = 400 ∧
    (send_request sampleRemoteAgent
      (.response (handle_jsonrpc sampleHandlers sampleUnknownMethodInput).status
        (responseBody (handle_jsonrpc sampleHandlers sampleUnknownMethodInput))) 30).1 =
      .error (.httpErr 400) :=
  ⟨(C9_error_responses_http_400 sampleHandlers sampleUnknownMethodInput
      (by simp [sampleUnknownMethodInput, handle_jsonrpc, sampleHandlers,
        jsonrpc_error])).1,
   (C9_error_responses_http_400 sampleHandlers sampleUnknownMethodInput
      (by simp [sampleUnknownMethodInput, handle_jsonrpc, sampleHandlers,
        jsonrpc_error])).2.1 sampleRemoteAgent 30⟩

end StatusTheorems

section DiscoveryTheorems

theorem discover_agents_append (atype : String) (caps : List String) (now : Nat)
    (l₁ l₂ : List (String × DiscoveryOutcome)) :
    discover_agents atype caps now (l₁ ++ l₂) =
      discover_agents atype caps now l₁ ++ discover_agents atype caps now l₂ := by
  rw [discover_agents, discover_agents, discover_agents, List.flatMap_append]

/-- Claim C5: in a discovery sweep, each endpoint answering HTTP 200 with a
parseable listing contributes exactly one `RemoteAgent` handle per listed
agent whose type matches and whose capabilities include every required
capability; an endpoint that fails — connection error or timeout, a non-200
status such as 500, or malformed JSON — contributes zero agents without
raising, and the other endpoints of the sweep are unaffected. -/
theorem C5_discovery_filter_and_isolation (atype : String) (caps : List String)
    (now : Nat) (pre post : List (String × DiscoveryOutcome)) (e : String) :
    (∀ out : DiscoveryOutcome,
      (out = .connectionFailed ∨
        (∃ s b, out = .response s b ∧ s ≠ 200) ∨
        out = .response 200 none) →
      discover_agents atype caps now (pre ++ (e, out) :: post) =
        discover_agents atype caps now pre ++ discover_agents atype caps now post) ∧
    (∀ agents : List AgentInfo,
      discover_agents atype caps now (pre ++ (e, .response 200 (some agents)) :: post) =
        discover_agents atype caps now pre ++
          (agents.filter (agentMatches atype caps)).map (mkDiscoveredAgent e now) ++
          discover_agents atype caps now post) := by
  have hcons : ∀ (ep : String) (out : DiscoveryOutcome)
      (rest : List (String × DiscoveryOutcome)),
      discover_agents atype caps now ((ep, out) :: rest) =
        discoverFromEndpoint atype caps now ep out ++
          discover_agents atype caps now rest := by
    intro ep out rest
    rw [discover_agents, discover_agents, List.flatMap_cons]
  constructor
  · intro out hout
    rw [discover_agents_append, hcons]
    have hmid : discoverFromEndpoint atype caps now e out = [] := by
      rcases hout with rfl | ⟨s, b, rfl, hs⟩ | rfl
      · rfl
      · simp only [discoverFromEndpoint]
        rw [if_neg hs]
      · rfl
    rw [hmid, List.nil_append]
  · intro agents
    rw [discover_agents_append, hcons]
    rw [show discoverFromEndpoint atype caps now e (.response 200 (some agents)) =
      (agents.filter (agentMatches atype caps)).map (mkDiscoveredAgent e now) from rfl]
    rw [List.append_assoc]

/-- Witness for C5 on a concrete three-endpoint sweep: the middle endpoint
is unreachable and contributes nothing, while the first endpoint's listing
is filtered down to its single matching agent and the last (HTTP 500)
endpoint contributes nothing. -/
theorem C5_discovery_filter_and_isolation_witness :
    discover_agents "accessibility_tester" ["wcag_testing", "automated_accessibility"] 1000
        ([("http://localhost:8080",
            .response 200 (some [sampleAgentInfo, sampleOtherAgentInfo]))] ++
          ("http://localhost:8081", .connectionFailed) ::
          [("http://localhost:8082", .response 500 none)]) =
      discover_agents "accessibility_tester" ["wcag_testing", "automated_accessibility"] 1000
          [("http://localhost:8080",
            .response 200 (some [sampleAgentInfo, sampleOtherAgentInfo]))] ++
        discover_agents "accessibility_tester" ["wcag_testing", "automated_accessibility"] 1000
          [("http://localhost:8082", .response 500 none)] ∧
    discover_agents "accessibility_tester" ["wcag_testing", "automated_accessibility"] 1000
        [("http://localhost:8080",
          .response 200 (some [sampleAgentInfo, sampleOtherAgentInfo]))] =
      [mkDiscoveredAgent "http://localhost:8080" 1000 sampleAgentInfo] :=
  ⟨(C5_discovery_filter_and_isolation "accessibility_tester"
      ["wcag_testing", "automated_accessibility"] 1000
      [("http://localhost:8080",
        .response 200 (some [sampleAgentInfo, sampleOtherAgentInfo]))]
      [("http://localhost:8082", .response 500 none)]
      "http://localhost:8081").1 .connectionFailed (Or.inl rfl),
   by decide⟩

end DiscoveryTheorems

section CoordinatorTheorems

theorem dedupStep_same_key_le {a x : AccessibilityIssue}
    (hk : dedupKey x = dedupKey a)
    (hr : severity_rank x.severity ≤ severity_rank a.severity) :
    dedupStep [a] x = [a] := by
  rw [dedupStep, if_neg (by simp [hk])]
  rw [List.find?_cons_of_pos _ (by simp [hk])]
  dsimp only
  rw [if_neg (by omega)]

theorem foldl_dedupStep_same_key_le (l : List AccessibilityIssue)
    (a : AccessibilityIssue)
    (h : ∀ x ∈ l, dedupKey x = dedupKey a ∧
      severity_rank x.severity ≤ severity_rank a.severity) :
    l.foldl dedupStep [a] = [a] := by
  induction l with
  | nil => rfl
  | cons x t ih =>
    have hx := h x (List.mem_cons_self _ _)
    rw [List.foldl_cons, dedupStep_same_key_le hx.1 hx.2]
    exact ih (fun y hy => h y (List.mem_cons_of_mem _ hy))

/-- Counterexample to claim C6: with the target unreachable, the coordinator
does NOT short-circuit — the fan-out loop still invokes both checkers (the
invocation count is 2, not 0); the aggregated result nevertheless collapses
to exactly one CRITICAL `URL_VALIDATION` issue because the checkers'
identical access-failure issues share one dedup key. -/
theorem C6_no_short_circuit_counterexample :
    (coordinatorAnalyze false "http://unreachable.example" []
      [sampleCheckerA, sampleCheckerB]).2 = 2 ∧
    (coordinatorAnalyze false "http://unreachable.example" []
      [sampleCheckerA, sampleCheckerB]).2 ≠ 0 ∧
    (coordinatorAnalyze false "http://unreachable.example" []
      [sampleCheckerA, sampleCheckerB]).1 =
      [urlValidationIssue "color_contrast_agent" "http://unreachable.example"] := by
  refine ⟨rfl, by decide, ?_⟩
  have h1 : (coordinatorAnalyze false "http://unreachable.example" []
      [sampleCheckerA, sampleCheckerB]).1 =
      prioritize_issues (deduplicate_issues
        [urlValidationIssue "color_contrast_agent" "http://unreachable.example",
         urlValidationIssue "keyboard_focus_agent" "http://unreachable.example"]) := rfl
  have h2 : deduplicate_issues
      [urlValidationIssue "color_contrast_agent" "http://unreachable.example",
       urlValidationIssue "keyboard_focus_agent" "http://unreachable.example"] =
      [urlValidationIssue "color_contrast_agent" "http://unreachable.example"] := by
    decide
  rw [h1, h2, prioritize_issues, List.mergeSort_singleton]

/-- Claim C6, amended: when the target URL is unreachable, every checker is
still invoked (the coordinator performs no short-circuit), but each
invocation returns only the single CRITICAL `URL_VALIDATION` issue without
running its browser tests, and — absent remote results — the coordinator's
aggregated, deduplicated output is exactly one CRITICAL issue of type
`URL_VALIDATION` describing the access failure. -/
theorem C6_unreachable_single_critical_amended (url : String)
    (checkers : List LocalChecker) (h : checkers ≠ []) :
    (coordinatorAnalyze false url [] checkers).1 =
      [urlValidationIssue (checkers.head h).name url] ∧
    (coordinatorAnalyze false url [] checkers).2 = checkers.length ∧
    (urlValidationIssue (checkers.head h).name url).severity = .critical ∧
    (urlValidationIssue (checkers.head h).name url).issue_type = "URL_VALIDATION" := by
  refine ⟨?_, rfl, rfl, rfl⟩
  cases checkers with
  | nil => exact absurd rfl h
  | cons c cs =>
    have hfm : ∀ ds : List LocalChecker,
        ds.flatMap (checkerAnalyze false url) =
          ds.map (fun x => urlValidationIssue x.name url) := by
      intro ds
      induction ds with
      | nil => rfl
      | cons d t ih =>
        rw [List.flatMap_cons, List.map_cons, ih]
        rfl
    have h1 : (coordinatorAnalyze false url [] (c :: cs)).1 =
        prioritize_issues ((cs.map (fun x => urlValidationIssue x.name url)).foldl
          dedupStep [urlValidationIssue c.name url]) := by
      rw [coordinatorAnalyze]
      dsimp only
      rw [List.nil_append, hfm, List.map_cons, deduplicate_issues, List.foldl_cons]
      rfl
    have h2 : (cs.map (fun x => urlValidationIssue x.name url)).foldl
        dedupStep [urlValidationIssue c.name url] = [urlValidationIssue c.name url] := by
      apply foldl_dedupStep_same_key_le
      intro x hx
      rcases List.mem_map.mp hx with ⟨d, _, rfl⟩
      exact ⟨rfl, le_refl _⟩
    rw [h1, h2, prioritize_issues, List.mergeSort_singleton]
    rfl

/-- Witness for the amended C6 at the two concrete checkers: both are
invoked and the result is the single CRITICAL issue of the first. -/
theorem C6_unreachable_single_critical_amended_witness :
    (coordinatorAnalyze false "http://offline.example" []
      [sampleCheckerA, sampleCheckerB]).1 =
      [urlValidationIssue "color_contrast_agent" "http://offline.example"] ∧
    (coordinatorAnalyze false "http://offline.example" []
      [sampleCheckerA, sampleCheckerB]).2 = 2 :=
  ⟨(C6_unreachable_single_critical_amended "http://offline.example"
      [sampleCheckerA, sampleCheckerB] (by simp)).1,
   (C6_unreachable_single_critical_amended "http://offline.example"
      [sampleCheckerA, sampleCheckerB] (by simp)).2.1⟩

end CoordinatorTheorems

section SendRequestTheorems

/-- Counterexample to claim C7: a successful `send_request` does NOT update
the target handle's last-seen timestamp — the handle of a never-contacted
agent still has `last_seen = none` after a successful call (the refresh
lives in the callers, not in `send_request`). -/
theorem C7_send_request_no_last_seen_update_counterexample :
    (send_request sampleRemoteAgent
      (.response 200 { result := some [("status", "ok")] }) 30).1 =
      .ok [("status", "ok")] ∧
    (send_request sampleRemoteAgent
      (.response 200 { result := some [("status", "ok")] }) 30).2.last_seen = none ∧
    sampleRemoteAgent.last_seen = none := by
  refine ⟨rfl, rfl, rfl⟩

/-- Claim C7, amended: `send_request` raises a timeout failure on network
timeout, an HTTP failure on a non-200 status, and an envelope failure on a
JSON-RPC `error` member in a 200 body; on success it returns the envelope's
`result` payload but leaves the handle — in particular its last-seen
timestamp — unchanged; the refresh of `last_seen` is performed by its
caller `coordinate_accessibility_test` after a successful call. -/
theorem C7_send_request_amended (target : RemoteAgent) (t : Nat) :
    (send_request target .timeout t =
      (.error (.timeoutErr ("Request timeout after " ++ toString t ++ " seconds")),
        target)) ∧
    (∀ (status : Nat) (body : RpcResponseBody), status ≠ 200 →
      send_request target (.response status body) t =
        (.error (.httpErr status), target)) ∧
    (∀ (body : RpcResponseBody) (err : Int × String), body.error = some err →
      send_request target (.response 200 body) t =
        (.error (.envelopeErr ("Remote agent error: " ++ err.2)), target)) ∧
    (∀ body : RpcResponseBody, body.error = none →
      send_request target (.response 200 body) t =
        (.ok (body.result.getD []), target)) ∧
    (∀ (body : RpcResponseBody) (r : RpcDict) (now : Nat),
      body.error = none → body.result = some r →
      coordinate_accessibility_test target (.response 200 body) now =
        (.ok r, { target with last_seen := some now })) := by
  refine ⟨rfl, ?_, ?_, ?_, ?_⟩
  · intro status body hs
    rw [send_request]
    rw [if_neg hs]
  · intro body err herr
    rw [send_request]
    rw [if_pos rfl, herr]
  · intro body herr
    rw [send_request]
    rw [if_pos rfl, herr]
  · intro body r now herr hres
    rw [coordinate_accessibility_test]
    have hsend : send_request target (.response 200 body) =
        (.ok (body.result.getD []), target) := by
      rw [send_request]
      rw [if_pos rfl, herr]
    rw [hsend, hres]
    rfl

/-- Witness for the amended C7 at concrete outcomes: an HTTP 500 raises an
HTTP failure with the handle untouched, and a successful coordinated call
returns the payload with the handle's last-seen refreshed. -/
theorem C7_send_request_amended_witness :
    send_request sampleRemoteAgent (.response 500 {}) 30 =
      (.error (.httpErr 500), sampleRemoteAgent) ∧
    coordinate_accessibility_test sampleRemoteAgent
        (.response 200 { result := some [("status", "ok")] }) 1234 =
      (.ok [("status", "ok")], { sampleRemoteAgent with last_seen := some 1234 }) :=
  ⟨(C7_send_request_amended sampleRemoteAgent 30).2.1 500 {} (by decide),
   (C7_send_request_amended sampleRemoteAgent 30).2.2.2.2
      { result := some [("status", "ok")] } [("status", "ok")] 1234 rfl rfl⟩

end SendRequestTheorems

section SessionStoreTheorems

/-- Counterexample to claim C8: `execute_accessibility_test` against an
unknown session id does not signal not-found — it silently proceeds,
creating a fresh session under a newly generated id and storing the run
there. -/
theorem C8_unknown_session_creates_fresh_counterexample :
    execute_accessibility_test [] (some "ghost-session") "fresh-id"
        [("url", "http://x")] =
      ("fresh-id",
        [("fresh-id",
          { test_completed := true, test_results := some [("url", "http://x")] })]) ∧
    ([] : SessionStore).length <
      (execute_accessibility_test [] (some "ghost-session") "fresh-id"
        [("url", "http://x")]).2.length := by
  exact ⟨rfl, by decide⟩

/-- Claim C8, amended: `process_user_input`, report generation and deletion
signal not-found for an unknown session id (the first two raise, `delete`
returns false), and none of them creates a session for that id; but
`execute_accessibility_test`, handed an unknown session id, silently
proceeds by creating a fresh session under a newly generated id instead of
signalling not-found. -/
theorem C8_session_not_found_amended (store : SessionStore) (sid : String)
    (h : store.lookup sid = none) :
    (∀ input : String, process_user_input store sid input =
      .error ("Session " ++ sid ++ " not found")) ∧
    generate_comprehensive_report store sid =
      .error ("Session " ++ sid ++ " not found") ∧
    cleanup_session store sid = (false, store) ∧
    (∀ (freshId : String) (results : RpcDict),
      execute_accessibility_test store (some sid) freshId results =
        (freshId, store ++ [(freshId,
          { test_completed := true, test_results := some results })])) := by
  refine ⟨?_, ?_, ?_, ?_⟩
  · intro input
    rw [process_user_input, h]
  · rw [generate_comprehensive_report, h]
  · rw [cleanup_session, h]
  · intro freshId results
    rw [execute_accessibility_test]
    dsimp only
    rw [h]

/-- Witness for the amended C8 against a concrete one-session store and the
unknown id `"ghost"`. -/
theorem C8_session_not_found_amended_witness :
    process_user_input [("s1", {})] "ghost" "test https://example.com" =
      .error ("Session " ++ "ghost" ++ " not found") ∧
    generate_comprehensive_report [("s1", {})] "ghost" =
      .error ("Session " ++ "ghost" ++ " not found") ∧
    cleanup_session [("s1", {})] "ghost" = (false, [("s1", {})]) :=
  ⟨(C8_session_not_found_amended [("s1", {})] "ghost" (by decide)).1
      "test https://example.com",
   (C8_session_not_found_amended [("s1", {})] "ghost" (by decide)).2.1,
   (C8_session_not_found_amended [("s1", {})] "ghost" (by decide)).2.2.1⟩

end SessionStoreTheorems
